import Mathlib

/-!
# 5_squares: the quad generator and the frame loop of `src/Application.cpp`

The program computes with `float` (and a few `double` sub-expressions).  The embedding
of the geometry and of the bounce is exact: the scalars are an arbitrary field `α`,
executable at `ℚ` and instantiated at `ℝ` (with the real cosine and sine) in the
statements about rotations.  The accumulation of the animation state is also given with
the rounding of every `float` operation (`roundF32`, `frameUpdateF32`), the floats being
the rationals that `roundF32` leaves unchanged.
-/

namespace FiveSquares

/-! ## Data model (`Application.cpp`, lines 17-36) -/

/-- The record `struct Vec2 { float x, y; }`. -/
structure Vec2 (α : Type) where
  x : α
  y : α
deriving DecidableEq, Repr

/-- The record `struct Vec3 { float x, y, z; }`. -/
structure Vec3 (α : Type) where
  x : α
  y : α
  z : α
deriving DecidableEq, Repr

/-- The record `struct Vec4 { float x, y, z, w; }`; also used for `glm::vec4`. -/
structure Vec4 (α : Type) where
  x : α
  y : α
  z : α
  w : α
deriving DecidableEq, Repr

/-- The record `struct Vertex`. -/
structure Vertex (α : Type) where
  Position : Vec3 α
  Color : Vec4 α
  TexCoords : Vec2 α
  TexID : α
deriving DecidableEq, Repr

/-- A `glm::mat4`, stored by columns as GLM does: `m[i]` is the field `ci`. -/
structure Mat4 (α : Type) where
  c0 : Vec4 α
  c1 : Vec4 α
  c2 : Vec4 α
  c3 : Vec4 α
deriving DecidableEq, Repr

/-- The scalar functions of the C library and GLM that `CreateSquare` reaches through
`glm::rotate` and `glm::radians`: cosine, sine, and the factor that `glm::radians`
multiplies a number of degrees by. -/
structure Trig (α : Type) where
  cos : α → α
  sin : α → α
  degToRad : α

section Geometry

variable {α : Type} [Field α]

/-- Componentwise sum of two `glm::vec4`. -/
def Vec4.add (a b : Vec4 α) : Vec4 α :=
  ⟨a.x + b.x, a.y + b.y, a.z + b.z, a.w + b.w⟩

/-- Product of a `glm::vec4` by a scalar, `v * k`. -/
def Vec4.scale (v : Vec4 α) (k : α) : Vec4 α :=
  ⟨v.x * k, v.y * k, v.z * k, v.w * k⟩

/-- Modelled from the spec: `glm::mat4(1.0f)`, GLM is not under src/; the identity
matrix from which `CreateSquare` starts. -/
def Mat4.identity : Mat4 α :=
  ⟨⟨1, 0, 0, 0⟩, ⟨0, 1, 0, 0⟩, ⟨0, 0, 1, 0⟩, ⟨0, 0, 0, 1⟩⟩

/-- Modelled from the spec: `glm::translate(m, v)`, GLM is not under src/; the
translation step of the spec's translate-rotate-translate transform.  As in GLM,
`Result = m; Result[3] = m[0]*v[0] + m[1]*v[1] + m[2]*v[2] + m[3]`. -/
def translate (m : Mat4 α) (v : Vec3 α) : Mat4 α :=
  { m with
    c3 := (((m.c0.scale v.x).add (m.c1.scale v.y)).add (m.c2.scale v.z)).add m.c3 }

/-- Modelled from the spec: `glm::rotate(m, angle, axis)`, GLM is not under src/; the
rotation step of the spec's transform.  `axis` is the normalised axis: the only call
passes `(0, 0, 1)`, which `glm::normalize` leaves unchanged.  As in GLM the rotation
block is built from `c = cos angle`, `s = sin angle`, `temp = (1 - c) * axis`, and the
first three columns of `m` are recombined with it; the fourth column is kept. -/
def rotate (T : Trig α) (m : Mat4 α) (angle : α) (axis : Vec3 α) : Mat4 α :=
  let c := T.cos angle
  let s := T.sin angle
  let temp : Vec3 α := ⟨(1 - c) * axis.x, (1 - c) * axis.y, (1 - c) * axis.z⟩
  let r00 := c + temp.x * axis.x
  let r01 := temp.x * axis.y + s * axis.z
  let r02 := temp.x * axis.z - s * axis.y
  let r10 := temp.y * axis.x - s * axis.z
  let r11 := c + temp.y * axis.y
  let r12 := temp.y * axis.z + s * axis.x
  let r20 := temp.z * axis.x + s * axis.y
  let r21 := temp.z * axis.y - s * axis.x
  let r22 := c + temp.z * axis.z
  { c0 := ((m.c0.scale r00).add (m.c1.scale r01)).add (m.c2.scale r02)
    c1 := ((m.c0.scale r10).add (m.c1.scale r11)).add (m.c2.scale r12)
    c2 := ((m.c0.scale r20).add (m.c1.scale r21)).add (m.c2.scale r22)
    c3 := m.c3 }

/-- Modelled from the spec: `glm::radians(degrees)`, GLM is not under src/; the angle
is given in degrees and converted by one multiplication. -/
def radians (T : Trig α) (degrees : α) : α :=
  degrees * T.degToRad

/-- Modelled from the spec: `model * glm::vec4`, GLM is not under src/; the product
of a matrix by a column vector, the linear combination of the columns of `m`. -/
def Mat4.mulVec (m : Mat4 α) (v : Vec4 α) : Vec4 α :=
  ((m.c0.scale v.x).add (m.c1.scale v.y)).add ((m.c2.scale v.z).add (m.c3.scale v.w))

/-- The constructor `Vec3(glm::mat4 model, glm::vec3 pos)` (lines 21-27):
`res = model * glm::vec4(pos, 1)`, of which `x`, `y`, `z` are kept. -/
def Vec3.ofModel (model : Mat4 α) (pos : Vec3 α) : Vec3 α :=
  let res := model.mulVec ⟨pos.x, pos.y, pos.z, 1⟩
  ⟨res.x, res.y, res.z⟩

/-- The model matrix of `CreateSquare` (lines 303-306). -/
def modelMatrix (T : Trig α) (x y angle : α) : Mat4 α :=
  let model : Mat4 α := Mat4.identity
  let model := translate model ⟨x, y, 0⟩
  let model := rotate T model (radians T angle) ⟨0, 0, 1⟩
  let model := translate model ⟨-x, -y, -0⟩
  model

/-- The function `CreateSquare` (lines 301-333): the four vertices `v0, v1, v2, v3`
of the returned `std::array<Vertex, 4>`, in order. -/
def CreateSquare (T : Trig α) (x y size : α) (color : Vec4 α) (TexID angle : α) :
    List (Vertex α) :=
  let model := modelMatrix T x y angle
  let v0 : Vertex α :=
    { Position := Vec3.ofModel model ⟨x - size / 2, y - size / 2, 0⟩
      Color := color
      TexCoords := ⟨0, 0⟩
      TexID := TexID }
  let v1 : Vertex α :=
    { Position := Vec3.ofModel model ⟨x + size / 2, y - size / 2, 0⟩
      Color := color
      TexCoords := ⟨1, 0⟩
      TexID := TexID }
  let v2 : Vertex α :=
    { Position := Vec3.ofModel model ⟨x + size / 2, y + size / 2, 0⟩
      Color := color
      TexCoords := ⟨1, 1⟩
      TexID := TexID }
  let v3 : Vertex α :=
    { Position := Vec3.ofModel model ⟨x - size / 2, y + size / 2, 0⟩
      Color := color
      TexCoords := ⟨0, 1⟩
      TexID := TexID }
  [v0, v1, v2, v3]

end Geometry

/-- A rational stand-in for the trigonometric functions, exact at the angle `0` and at a
quarter turn given as `90` degrees with `degToRad = 1`; used to run the code on `ℚ`. -/
def ratTrig : Trig ℚ :=
  { cos := fun t => if t = 0 then 1 else if t = 90 then 0 else 3 / 5
    sin := fun t => if t = 0 then 0 else if t = 90 then 1 else 4 / 5
    degToRad := 1 }

section SpecNotions

variable {α : Type} [Field α]

/-- The centroid of a list of vertices: the arithmetic mean of their positions. -/
def centroid (q : List (Vertex α)) : Vec3 α :=
  ⟨(q.map fun v => v.Position.x).sum / (q.length : α),
   (q.map fun v => v.Position.y).sum / (q.length : α),
   (q.map fun v => v.Position.z).sum / (q.length : α)⟩

/-- The axis-aligned corners of the square of center `(x, y)` and size `size`, in the
order bottom-left, bottom-right, top-right, top-left. -/
def corners (x y size : α) : List (Vec3 α) :=
  [⟨x - size / 2, y - size / 2, 0⟩, ⟨x + size / 2, y - size / 2, 0⟩,
   ⟨x + size / 2, y + size / 2, 0⟩, ⟨x - size / 2, y + size / 2, 0⟩]

/-- The point `c + R · (p - c)` for the center `c = (x, y)` and the plane rotation
`R = [[co, -si], [si, co]]`, with third coordinate `0`. -/
def rotateAbout (co si x y : α) (p : Vec3 α) : Vec3 α :=
  ⟨x + (co * (p.x - x) - si * (p.y - y)), y + (si * (p.x - x) + co * (p.y - y)), 0⟩

end SpecNotions

/-! ## The frame loop (`main`, lines 175-292) -/

/-- The constant `const unsigned int WIDTH = 1280`. -/
def WIDTH : Nat := 1280

/-- The constant `const unsigned int HEIGHT = 720`. -/
def HEIGHT : Nat := 720

/-- The array `unsigned int indicies[]` (lines 218-225). -/
def indicies : List Nat :=
  [ 0,  1,  2,  2,  3,  0,
    4,  5,  6,  6,  7,  4,
    8,  9, 10, 10, 11,  8,
   12, 13, 14, 14, 15, 12,
   16, 17, 18, 18, 19, 16]

/-- The value of `sizeof(unsigned int)`, in bytes. -/
def sizeofUnsignedInt : Nat := 4

/-- The value of `sizeof(indicies)`, in bytes. -/
def sizeofIndicies : Nat := indicies.length * sizeofUnsignedInt

/-- The count given to `glDrawElements` (line 288):
`sizeof(indicies) / sizeof(unsigned int)`. -/
def drawCount : Nat := sizeofIndicies / sizeofUnsignedInt

/-- The array `int samplers[2] = { 0, 1 }` (line 206), set as the `u_Textures` uniform
with count `2`: the texture units that have a texture bound. -/
def samplers : List Int := [0, 1]

/-- The variables of `main` that one iteration of the loop reads and writes
(lines 236-243). -/
structure LoopState (α : Type) where
  lastTime : α
  dir : Int
  resultPos : α
  resultAngle : α
deriving DecidableEq, Repr

/-- What one iteration receives from outside: the values the overlay leaves in
`velocity`, `angle` and `color`, and the value of `ImGui::GetTime()`. -/
structure FrameInput (α : Type) where
  velocity : α
  angle : α
  color : Vec4 α
  currentTime : α
deriving DecidableEq, Repr

/-- The arguments of one call of `CreateSquare`. -/
structure SquareArgs (α : Type) where
  x : α
  y : α
  size : α
  color : Vec4 α
  TexID : α
  angle : α
deriving DecidableEq, Repr

section FrameLoop

variable {α : Type} [LinearOrderedField α]

/-- The constant `const float size = 50.0f`. -/
def size : α := 50

/-- The state before the first iteration (lines 236-243): `lastTime = 0`, `dir = 1`,
`resultPos = WIDTH / 2.`, `resultAngle = 0`. -/
def initialState : LoopState α :=
  { lastTime := 0, dir := 1, resultPos := (WIDTH : α) / 2, resultAngle := 0 }

/-- The direction chosen at lines 263-264.  The first bound is `WIDTH * 2 / 3.`, a
division of floating-point numbers; the second is `WIDTH / 3`, a division of unsigned
integers whose quotient is then converted. -/
def updateDir (resultPos : α) (dir : Int) : Int :=
  if resultPos > ((WIDTH * 2 : Nat) : α) / 3 then -1
  else if resultPos < ((WIDTH / 3 : Nat) : α) then 1
  else dir

/-- The update of the animation state in one iteration (lines 263-269). -/
def frameUpdate (s : LoopState α) (inp : FrameInput α) : LoopState α :=
  let dir := updateDir s.resultPos s.dir
  let currentTime := inp.currentTime
  { lastTime := currentTime
    dir := dir
    resultPos := s.resultPos + (dir : α) * inp.velocity * (currentTime - s.lastTime)
    resultAngle := s.resultAngle + inp.angle * (currentTime - s.lastTime) }

/-- The arguments of the five calls `q0 .. q4` of `CreateSquare` (lines 271-275), for
the state `s` reached after the update of the same iteration. -/
def quadArgs (s : LoopState α) (color : Vec4 α) : List (SquareArgs α) :=
  [ ⟨(WIDTH : α) / 2, (HEIGHT : α) / 2, size, color, 0, 0⟩,
    ⟨(WIDTH : α) / 3, (HEIGHT : α) / 2, size, ⟨6 / 100, 71 / 100, 29 / 100, 1⟩, 1, 0⟩,
    ⟨((WIDTH * 2 : Nat) : α) / 3, (HEIGHT : α) / 2, size,
      ⟨33 / 100, 63 / 100, 94 / 100, 1⟩, 2, 0⟩,
    ⟨(WIDTH : α) / 2, (HEIGHT : α) / 3, size, ⟨99 / 100, 85 / 100, 9 / 100, 1⟩, 0,
      s.resultAngle⟩,
    ⟨s.resultPos, ((HEIGHT * 2 : Nat) : α) / 3, size, ⟨48 / 100, 24 / 100, 91 / 100, 1⟩,
      0, 0⟩ ]

/-- One call of `CreateSquare` on a record of arguments. -/
def SquareArgs.create (T : Trig α) (a : SquareArgs α) : List (Vertex α) :=
  CreateSquare T a.x a.y a.size a.color a.TexID a.angle

/-- The host array `vertecies` after the five `memcpy` (lines 277-281): quad `i` fills
the slots `4 i .. 4 i + 3`. -/
def vertecies (T : Trig α) (s : LoopState α) (color : Vec4 α) : List (Vertex α) :=
  (quadArgs s color).flatMap (SquareArgs.create T)

/-- One iteration of the loop: the new state and the uploaded vertices. -/
def frame (T : Trig α) (s : LoopState α) (inp : FrameInput α) :
    LoopState α × List (Vertex α) :=
  let s1 := frameUpdate s inp
  (s1, vertecies T s1 inp.color)

/-- The state after a sequence of iterations. -/
def runFrames (s : LoopState α) (inps : List (FrameInput α)) : LoopState α :=
  inps.foldl frameUpdate s

/-- Every iteration of the run from `s` over `inps` moves the position by a
displacement `velocity * (currentTime - lastTime)` between `0` and `d`. -/
def displacementsWithin (d : α) (s : LoopState α) : List (FrameInput α) → Prop
  | [] => True
  | inp :: rest =>
      0 ≤ inp.velocity * (inp.currentTime - s.lastTime) ∧
      inp.velocity * (inp.currentTime - s.lastTime) ≤ d ∧
      displacementsWithin d (frameUpdate s inp) rest

end FrameLoop

/-! ## The frame update in single precision -/

/-- The integer nearest to `q`, the even one when `q` is halfway between two. -/
def roundHalfEven (q : ℚ) : ℤ :=
  let f := ⌊q⌋
  let r := q - f
  if r < 1 / 2 then f else if 1 / 2 < r then f + 1 else if f % 2 = 0 then f else f + 1

/-- The `float` (IEEE 754 binary32, 24 significant bits, least normal exponent `-126`)
nearest to `q`, ties to even: the result of a `float` operation whose exact result is
`q`.  Overflow to infinity, beyond `2 ^ 128`, is not represented. -/
def roundF32 (q : ℚ) : ℚ :=
  if q = 0 then 0
  else
    let e := max (Int.log 2 |q|) (-126)
    let ulp : ℚ := 2 ^ (e - 23)
    (roundHalfEven (q / ulp) : ℚ) * ulp

/-- The update of the animation state in one iteration (lines 263-269) with the
rounding of each `float` operation: the difference `currentTime - lastTime`, the
products and the two `+=`.  The state and the inputs hold floats.  The comparisons of
`updateDir` are those of the code on floats: no float lies between `WIDTH * 2 / 3` and
the `double` that `WIDTH * 2 / 3.` rounds to. -/
def frameUpdateF32 (s : LoopState ℚ) (inp : FrameInput ℚ) : LoopState ℚ :=
  let dir := updateDir s.resultPos s.dir
  let currentTime := inp.currentTime
  let elapsed := roundF32 (currentTime - s.lastTime)
  { lastTime := currentTime
    dir := dir
    resultPos := roundF32 (s.resultPos + roundF32 (roundF32 ((dir : ℚ) * inp.velocity) * elapsed))
    resultAngle := roundF32 (s.resultAngle + roundF32 (inp.angle * elapsed)) }

/-- The state after a sequence of iterations in single precision. -/
def runFramesF32 (s : LoopState ℚ) (inps : List (FrameInput ℚ)) : LoopState ℚ :=
  inps.foldl frameUpdateF32 s

/-! ## The quad generator -/

section GeometryFacts

variable {α : Type} [Field α]

theorem CreateSquare_length (T : Trig α) (x y size : α) (color : Vec4 α) (TexID angle : α) :
    (CreateSquare T x y size color TexID angle).length = 4 := rfl

/-- C7: for every center, size (of any sign), color, texture index and angle, and for
any cosine and sine, the four vertices of `CreateSquare` carry the texture coordinates
`(0,0), (1,0), (1,1), (0,1)`, in this order. -/
theorem CreateSquare_texCoords (T : Trig α) (x y size : α) (color : Vec4 α)
    (TexID angle : α) :
    (CreateSquare T x y size color TexID angle).map Vertex.TexCoords
      = [⟨0, 0⟩, ⟨1, 0⟩, ⟨1, 1⟩, ⟨0, 1⟩] := rfl

/-- Over any field of characteristic `0` and for any cosine and sine, the centroid of
the four vertices of `CreateSquare` is the center `(x, y)`, in the plane `z = 0`. -/
theorem CreateSquare_centroid_of_charZero [CharZero α] (T : Trig α) (x y size : α) (color : Vec4 α)
    (TexID angle : α) :
    centroid (CreateSquare T x y size color TexID angle) = ⟨x, y, 0⟩ := by
  have h4 : (4 : α) ≠ 0 := by norm_num
  simp only [centroid, CreateSquare, modelMatrix, translate, rotate, radians, Mat4.identity,
    Mat4.mulVec, Vec3.ofModel, Vec4.add, Vec4.scale, List.map, List.sum_cons, List.sum_nil,
    List.length_cons, List.length_nil]
  rw [Vec3.mk.injEq]
  refine ⟨?_, ?_, ?_⟩ <;> (push_cast; field_simp; try ring)

/-- The positions produced by `CreateSquare` are the axis-aligned corners, each rotated
about the center with the cosine and sine of `radians angle`. -/
theorem CreateSquare_positions (T : Trig α) (x y size : α) (color : Vec4 α)
    (TexID angle : α) :
    (CreateSquare T x y size color TexID angle).map Vertex.Position
      = (corners x y size).map
          (rotateAbout (T.cos (radians T angle)) (T.sin (radians T angle)) x y) := by
  simp only [CreateSquare, modelMatrix, translate, rotate, radians, Mat4.identity,
    Mat4.mulVec, Vec3.ofModel, Vec4.add, Vec4.scale, List.map, corners, rotateAbout,
    List.cons.injEq, Vec3.mk.injEq, and_true]
  refine ⟨⟨?_, ?_, ?_⟩, ⟨?_, ?_, ?_⟩, ⟨?_, ?_, ?_⟩, ⟨?_, ?_, ?_⟩⟩ <;> ring

end GeometryFacts

/-! ## The quad generator over the reals -/

/-- C1: at angle `0`, for every center and every size `s` (so for every `s > 0`), the
model matrix of `CreateSquare` is the identity and the four positions are the corners
`(x - s/2, y - s/2)`, `(x + s/2, y - s/2)`, `(x + s/2, y + s/2)`, `(x - s/2, y + s/2)`,
in this order, with `z = 0`. -/
theorem CreateSquare_angle_zero (x y s : ℝ) (color : Vec4 ℝ) (texId : ℝ) :
    modelMatrix ⟨Real.cos, Real.sin, Real.pi / 180⟩ x y 0 = Mat4.identity ∧
    (CreateSquare ⟨Real.cos, Real.sin, Real.pi / 180⟩ x y s color texId 0).map
        Vertex.Position
      = [⟨x - s / 2, y - s / 2, 0⟩, ⟨x + s / 2, y - s / 2, 0⟩,
         ⟨x + s / 2, y + s / 2, 0⟩, ⟨x - s / 2, y + s / 2, 0⟩] := by
  constructor <;>
  simp [CreateSquare, modelMatrix, translate, rotate, radians, Mat4.identity,
    Mat4.mulVec, Vec3.ofModel, Vec4.add, Vec4.scale]


/-- C2: for every center `(x, y)`, size `s` and angle `θ` in degrees, the centroid (the
arithmetic mean of the four positions) of the quad of `CreateSquare` is `(x, y)`, in
the plane `z = 0`, exactly. -/
theorem CreateSquare_centroid (x y s θ : ℝ) (color : Vec4 ℝ) (texId : ℝ) :
    centroid (CreateSquare ⟨Real.cos, Real.sin, Real.pi / 180⟩ x y s color texId θ)
      = ⟨x, y, 0⟩ :=
  CreateSquare_centroid_of_charZero _ x y s color texId θ

/-- Squared distance to the center of each vertex of `CreateSquare`: half the square of
the size, whatever the angle. -/
theorem CreateSquare_sqDist (x y s θ : ℝ) (color : Vec4 ℝ) (texId : ℝ) :
    ∀ p ∈ (CreateSquare ⟨Real.cos, Real.sin, Real.pi / 180⟩ x y s color texId θ).map
        Vertex.Position,
      (p.x - x) ^ 2 + (p.y - y) ^ 2 = s ^ 2 / 2 := by
  intro p hp
  have h := Real.sin_sq_add_cos_sq (θ * (Real.pi / 180))
  rw [CreateSquare_positions] at hp
  simp only [corners, rotateAbout, radians, List.map, List.mem_cons, List.mem_singleton,
    List.not_mem_nil, or_false] at hp
  rcases hp with rfl | rfl | rfl | rfl <;>
    (simp only []; linear_combination (s ^ 2 / 2) * h)

/-- C3 (amended): for every center `(x, y)`, size `s` and angle `θ` in degrees, the
positions of `CreateSquare` are the axis-aligned corners rotated about the center by
`R(θ) = [[cos, -sin], [sin, cos]]` at `radians θ`, with `z = 0`, and every vertex lies
at distance `|s| / √2` from the center (which is `s / √2` when `s ≥ 0`). -/
theorem CreateSquare_pure_rotation (x y s θ : ℝ) (color : Vec4 ℝ) (texId : ℝ) :
    (CreateSquare ⟨Real.cos, Real.sin, Real.pi / 180⟩ x y s color texId θ).map
        Vertex.Position
      = (corners x y s).map
          (rotateAbout (Real.cos (θ * (Real.pi / 180))) (Real.sin (θ * (Real.pi / 180))) x y)
    ∧ ∀ p ∈ (CreateSquare ⟨Real.cos, Real.sin, Real.pi / 180⟩ x y s color texId θ).map
        Vertex.Position,
      Real.sqrt ((p.x - x) ^ 2 + (p.y - y) ^ 2) = |s| / Real.sqrt 2 := by
  constructor
  · rw [CreateSquare_positions]
    rfl
  · intro p hp
    rw [CreateSquare_sqDist x y s θ color texId p hp,
      Real.sqrt_div (sq_nonneg s), Real.sqrt_sq_eq_abs]

/-- C3 (as stated) fails for a negative size: at center `(0, 0)`, size `-2` and angle
`0` the vertices are not at distance `s / √2 = -2 / √2` from the center. -/
theorem CreateSquare_distance_negative_size :
    ¬ ∀ p ∈ (CreateSquare ⟨Real.cos, Real.sin, Real.pi / 180⟩ 0 0 (-2) ⟨1, 1, 1, 1⟩ 0 0).map
        Vertex.Position,
      Real.sqrt ((p.x - 0) ^ 2 + (p.y - 0) ^ 2) = (-2 : ℝ) / Real.sqrt 2 := by
  intro h
  have h0 := h ⟨1, 1, 0⟩ (by
    simp [CreateSquare, modelMatrix, translate, rotate, radians, Mat4.identity,
      Mat4.mulVec, Vec3.ofModel, Vec4.add, Vec4.scale])
  have h1 : (0 : ℝ) ≤ Real.sqrt (((1 : ℝ) - 0) ^ 2 + ((1 : ℝ) - 0) ^ 2) := Real.sqrt_nonneg _
  have h2 : (-2 : ℝ) / Real.sqrt 2 < 0 :=
    div_neg_of_neg_of_pos (by norm_num) (Real.sqrt_pos.mpr (by norm_num))
  rw [h0] at h1
  exact absurd h1 (not_le.mpr h2)

/-! ## The index buffer -/

/-- C4: `indicies` has 30 entries; for each quad `i` of `0..4` the six entries at
positions `6 i .. 6 i + 5` are `4i, 4i+1, 4i+2, 4i+2, 4i+3, 4i`; each of them lies in
the block `[4i, 4i+3]`, every index is below `20`, and the count of the draw call,
`sizeof(indicies) / sizeof(unsigned int)`, is `30`. -/
theorem indicies_pattern :
    indicies.length = 30 ∧
    (∀ i : Fin 5, (indicies.drop (6 * i.val)).take 6
      = [4 * i.val, 4 * i.val + 1, 4 * i.val + 2, 4 * i.val + 2, 4 * i.val + 3, 4 * i.val]) ∧
    (∀ i : Fin 5, ∀ k ∈ (indicies.drop (6 * i.val)).take 6,
      4 * i.val ≤ k ∧ k ≤ 4 * i.val + 3) ∧
    (∀ k ∈ indicies, k < 20) ∧
    drawCount = 30 := by
  decide

/-! ## The animation state -/

section FrameLoopFacts

variable {α : Type} [LinearOrderedField α]

theorem updateDir_cases (pos : α) (dir : Int) (h : dir = 1 ∨ dir = -1) :
    updateDir pos dir = 1 ∨ updateDir pos dir = -1 := by
  unfold updateDir
  split_ifs <;> simp [h]

/-- Above `WIDTH * 2 / 3.` the update chooses the direction `-1` and does not increase
the position. -/
theorem frameUpdate_above (s : LoopState α) (inp : FrameInput α)
    (hpos : s.resultPos > ((WIDTH * 2 : Nat) : α) / 3) (hv : 0 ≤ inp.velocity)
    (ht : 0 ≤ inp.currentTime - s.lastTime) :
    (frameUpdate s inp).dir = -1 ∧ (frameUpdate s inp).resultPos ≤ s.resultPos := by
  have hd : updateDir s.resultPos s.dir = -1 := by
    unfold updateDir
    rw [if_pos hpos]
  refine ⟨hd, ?_⟩
  simp only [frameUpdate, hd]
  have := mul_nonneg hv ht
  push_cast
  nlinarith

/-- While the direction is `-1` and the position is at least `WIDTH / 3` (the integer
quotient `426`), the direction stays `-1` and the position does not increase. -/
theorem frameUpdate_descending (s : LoopState α) (inp : FrameInput α)
    (hdir : s.dir = -1) (hpos : ((WIDTH / 3 : Nat) : α) ≤ s.resultPos)
    (hv : 0 ≤ inp.velocity) (ht : 0 ≤ inp.currentTime - s.lastTime) :
    (frameUpdate s inp).dir = -1 ∧ (frameUpdate s inp).resultPos ≤ s.resultPos := by
  have hd : updateDir s.resultPos s.dir = -1 := by
    unfold updateDir
    split_ifs with h1 h2
    · rfl
    · exact absurd h2 (not_lt.mpr hpos)
    · exact hdir
  refine ⟨hd, ?_⟩
  simp only [frameUpdate, hd]
  have := mul_nonneg hv ht
  push_cast
  nlinarith

/-- Below `WIDTH / 3` (the integer quotient `426`) the update chooses the direction `1`
and does not decrease the position. -/
theorem frameUpdate_below (s : LoopState α) (inp : FrameInput α)
    (hpos : s.resultPos < ((WIDTH / 3 : Nat) : α)) (hv : 0 ≤ inp.velocity)
    (ht : 0 ≤ inp.currentTime - s.lastTime) :
    (frameUpdate s inp).dir = 1 ∧ s.resultPos ≤ (frameUpdate s inp).resultPos := by
  have hlt : ¬ s.resultPos > ((WIDTH * 2 : Nat) : α) / 3 := by
    have h : ((WIDTH / 3 : Nat) : α) ≤ ((WIDTH * 2 : Nat) : α) / 3 := by
      norm_num [WIDTH]
    exact not_lt.mpr (le_trans hpos.le h)
  have hd : updateDir s.resultPos s.dir = 1 := by
    unfold updateDir
    rw [if_neg hlt, if_pos hpos]
  refine ⟨hd, ?_⟩
  simp only [frameUpdate, hd]
  have := mul_nonneg hv ht
  push_cast
  nlinarith

/-- The bounds that the code keeps: with displacements between `0` and `d`, a position
within `[WIDTH / 3 - d, WIDTH * 2 / 3. + d]`, where `WIDTH / 3` is the integer quotient
`426`, stays within these bounds. -/
theorem runFrames_bounds (d : α) (inps : List (FrameInput α)) :
    ∀ s : LoopState α, displacementsWithin d s inps →
      (s.dir = 1 ∨ s.dir = -1) →
      ((WIDTH / 3 : Nat) : α) - d ≤ s.resultPos →
      s.resultPos ≤ ((WIDTH * 2 : Nat) : α) / 3 + d →
      ((WIDTH / 3 : Nat) : α) - d ≤ (runFrames s inps).resultPos ∧
        (runFrames s inps).resultPos ≤ ((WIDTH * 2 : Nat) : α) / 3 + d := by
  induction inps with
  | nil => intro s _ _ hl hu; exact ⟨hl, hu⟩
  | cons inp rest ih =>
    intro s hw hdir hl hu
    obtain ⟨h0, h1, hrest⟩ := hw
    have hLU : ((WIDTH / 3 : Nat) : α) ≤ ((WIDTH * 2 : Nat) : α) / 3 := by
      norm_num [WIDTH]
    have hstep : ((frameUpdate s inp).dir = 1 ∨ (frameUpdate s inp).dir = -1) ∧
        ((WIDTH / 3 : Nat) : α) - d ≤ (frameUpdate s inp).resultPos ∧
        (frameUpdate s inp).resultPos ≤ ((WIDTH * 2 : Nat) : α) / 3 + d := by
      simp only [frameUpdate, mul_assoc]
      unfold updateDir
      generalize ((WIDTH / 3 : Nat) : α) = lo at *
      generalize ((WIDTH * 2 : Nat) : α) / 3 = hi at *
      generalize inp.velocity * (inp.currentTime - s.lastTime) = dx at *
      split_ifs with ha hb
      · refine ⟨Or.inr rfl, ?_, ?_⟩ <;>
          simp only [Int.cast_neg, Int.cast_one, mul_assoc] <;> linarith
      · refine ⟨Or.inl rfl, ?_, ?_⟩ <;>
          simp only [Int.cast_neg, Int.cast_one, mul_assoc] <;> linarith
      · have ha1 := not_lt.mp ha
        have hb1 := not_lt.mp hb
        rcases hdir with h | h <;> rw [h] <;>
          refine ⟨by simp, ?_, ?_⟩ <;>
          simp only [Int.cast_neg, Int.cast_one, mul_assoc] <;> linarith
    exact ih (frameUpdate s inp) hrest hstep.1 hstep.2.1 hstep.2.2

theorem runFrames_resultPos_of_zero_velocity (inps : List (FrameInput α)) :
    ∀ s : LoopState α, (∀ inp ∈ inps, inp.velocity = 0) →
      (runFrames s inps).resultPos = s.resultPos := by
  induction inps with
  | nil => intro s _; rfl
  | cons inp rest ih =>
    intro s h
    have hv : inp.velocity = 0 := h inp (List.mem_cons_self inp rest)
    have hrest : ∀ i ∈ rest, i.velocity = 0 := fun i hi => h i (List.mem_cons_of_mem inp hi)
    have hstep : (frameUpdate s inp).resultPos = s.resultPos := by
      simp [frameUpdate, hv]
    show (runFrames (frameUpdate s inp) rest).resultPos = s.resultPos
    rw [ih (frameUpdate s inp) hrest, hstep]

/-- C8: with velocity `0` in every frame, after any number `n` of the frames (any
elapsed times, any angle rates, any color) the position accumulator is still `640` and
the center x-coordinates given to the five calls of `CreateSquare` are `1280/2`,
`1280/3`, `1280*2/3`, `1280/2` (the fourth quad) and `640` (the animated quad). -/
theorem zero_velocity_static (inps : List (FrameInput α))
    (h : ∀ inp ∈ inps, inp.velocity = 0) :
    ∀ (n : Nat) (color : Vec4 α),
      (runFrames initialState (inps.take n)).resultPos = 640 ∧
      (quadArgs (runFrames initialState (inps.take n)) color).map SquareArgs.x
        = [1280 / 2, 1280 / 3, 1280 * 2 / 3, 1280 / 2, 640] := by
  intro n color
  have hpos : (runFrames (initialState : LoopState α) (inps.take n)).resultPos = 640 := by
    rw [runFrames_resultPos_of_zero_velocity (inps.take n) initialState
      (fun i hi => h i (List.mem_of_mem_take hi))]
    norm_num [initialState, WIDTH]
  refine ⟨hpos, ?_⟩
  simp only [quadArgs, List.map, hpos]
  norm_num [WIDTH]

/-- Without rounding, one frame update adds `angle * (currentTime - lastTime)` to the
cumulative angle, whatever the state (direction included) and the velocity; the sum is
the angle given to the fourth call of `CreateSquare`. -/
theorem resultAngle_step (s : LoopState α) (inp : FrameInput α) :
    (frameUpdate s inp).resultAngle
      = s.resultAngle + inp.angle * (inp.currentTime - s.lastTime) ∧
    ((quadArgs (frameUpdate s inp) inp.color).map SquareArgs.angle)[3]?
      = some (s.resultAngle + inp.angle * (inp.currentTime - s.lastTime)) ∧
    ∀ (velocity : α) (color : Vec4 α),
      (frameUpdate s ⟨velocity, 360, color, s.lastTime + 1⟩).resultAngle
        = s.resultAngle + 360 := by
  refine ⟨rfl, rfl, ?_⟩
  intro velocity color
  simp [frameUpdate]

/-- C10 (amended): in every frame the 20 uploaded vertices carry, in the order of their
slots, the texture indices given to the five calls of `CreateSquare`: `0` for quad 0,
`1` for quad 1, `2` for quad 2 (slots `8 .. 11`) and `0` for quads 3 and 4; so every
texture index is `0`, `1` or `2`. -/
theorem vertecies_texIDs (T : Trig α) (s : LoopState α) (inp : FrameInput α) :
    (frame T s inp).2.map Vertex.TexID
      = [0, 0, 0, 0, 1, 1, 1, 1, 2, 2, 2, 2, 0, 0, 0, 0, 0, 0, 0, 0] ∧
    ∀ v ∈ (frame T s inp).2, v.TexID = 0 ∨ v.TexID = 1 ∨ v.TexID = 2 := by
  have hlist : (frame T s inp).2.map Vertex.TexID
      = [0, 0, 0, 0, 1, 1, 1, 1, 2, 2, 2, 2, 0, 0, 0, 0, 0, 0, 0, 0] := rfl
  refine ⟨hlist, ?_⟩
  intro v hv
  have hm : v.TexID ∈ (frame T s inp).2.map Vertex.TexID := List.mem_map_of_mem _ hv
  rw [hlist] at hm
  simp only [List.mem_cons, List.mem_singleton, List.not_mem_nil, or_false] at hm
  tauto

end FrameLoopFacts

/-! ## Runs of the frame loop on rational inputs -/

/-- C5 (evaluation at the failing input): after the frames `(velocity 214, time 1)` and
`(velocity 855/2, time 2)` from the initial state the position is `853/2`, which is
below a third of the width, `1280/3`, and not below the integer quotient `426`; the
direction is still `-1`, and the next update, with velocity `1 ≥ 0` and elapsed time
`1 ≥ 0`, decreases the position to `851/2`. -/
theorem bounce_decreases_below_third :
    (runFrames (initialState : LoopState ℚ)
        [⟨214, 0, ⟨0, 0, 0, 1⟩, 1⟩, ⟨855 / 2, 0, ⟨0, 0, 0, 1⟩, 2⟩])
      = ⟨2, -1, 853 / 2, 0⟩ ∧
    (853 / 2 : ℚ) < 1280 / 3 ∧
    (frameUpdate (⟨2, -1, 853 / 2, 0⟩ : LoopState ℚ) ⟨1, 0, ⟨0, 0, 0, 1⟩, 3⟩).resultPos
      = 851 / 2 ∧
    (851 / 2 : ℚ) < 853 / 2 := by
  norm_num [runFrames, frameUpdate, updateDir, initialState, WIDTH]

/-- C6 (evaluation at the failing input): four frames of displacement `214`, within the
bound `d = 214`, take the position from `640` to `854`, `640`, `426` and `212`, and
`212` is below `1280/3 - 214`. -/
theorem bounce_exceeds_lower_bound :
    displacementsWithin 214 (initialState : LoopState ℚ)
        [⟨214, 0, ⟨0, 0, 0, 1⟩, 1⟩, ⟨214, 0, ⟨0, 0, 0, 1⟩, 2⟩,
         ⟨214, 0, ⟨0, 0, 0, 1⟩, 3⟩, ⟨214, 0, ⟨0, 0, 0, 1⟩, 4⟩] ∧
    (runFrames (initialState : LoopState ℚ)
        [⟨214, 0, ⟨0, 0, 0, 1⟩, 1⟩, ⟨214, 0, ⟨0, 0, 0, 1⟩, 2⟩,
         ⟨214, 0, ⟨0, 0, 0, 1⟩, 3⟩, ⟨214, 0, ⟨0, 0, 0, 1⟩, 4⟩]).resultPos = 212 ∧
    ¬ ((1280 : ℚ) / 3 - 214 ≤ 212) := by
  norm_num [runFrames, frameUpdate, updateDir, initialState, WIDTH, displacementsWithin]

/-- Witness of C8: two frames with velocity `0`, angle rates `30` and `720`, at the
times `1` and `5/2`. -/
theorem zero_velocity_static_witness :
    (∀ inp ∈ ([⟨0, 30, ⟨0, 0, 0, 1⟩, 1⟩, ⟨0, 720, ⟨0, 0, 0, 1⟩, 5 / 2⟩] :
        List (FrameInput ℚ)), inp.velocity = 0) ∧
    ∀ (n : Nat) (color : Vec4 ℚ),
      (runFrames initialState
        (([⟨0, 30, ⟨0, 0, 0, 1⟩, 1⟩, ⟨0, 720, ⟨0, 0, 0, 1⟩, 5 / 2⟩] :
          List (FrameInput ℚ)).take n)).resultPos = 640 ∧
      (quadArgs (runFrames initialState
        (([⟨0, 30, ⟨0, 0, 0, 1⟩, 1⟩, ⟨0, 720, ⟨0, 0, 0, 1⟩, 5 / 2⟩] :
          List (FrameInput ℚ)).take n)) color).map SquareArgs.x
        = [1280 / 2, 1280 / 3, 1280 * 2 / 3, 1280 / 2, 640] :=
  ⟨by simp, zero_velocity_static _ (by simp)⟩

/-- C10 (as stated) fails: in the first frame, with velocity `0`, angle rate `0` and the
initial color, the vertices in the slots `8 .. 11` (quad 2) carry the texture index `2`,
so not every vertex carries `0` or `1`, the entries of `samplers`. -/
theorem vertecies_texID_outside_samplers :
    samplers = [0, 1] ∧
    ((frame ratTrig (initialState : LoopState ℚ)
        ⟨0, 0, ⟨45 / 100, 55 / 100, 60 / 100, 1⟩, 1⟩).2.map Vertex.TexID)
      = [0, 0, 0, 0, 1, 1, 1, 1, 2, 2, 2, 2, 0, 0, 0, 0, 0, 0, 0, 0] ∧
    ¬ ∀ v ∈ (frame ratTrig (initialState : LoopState ℚ)
        ⟨0, 0, ⟨45 / 100, 55 / 100, 60 / 100, 1⟩, 1⟩).2, v.TexID = 0 ∨ v.TexID = 1 := by
  refine ⟨rfl, rfl, ?_⟩
  intro h
  have hm : (2 : ℚ) ∈ (frame ratTrig (initialState : LoopState ℚ)
      ⟨0, 0, ⟨45 / 100, 55 / 100, 60 / 100, 1⟩, 1⟩).2.map Vertex.TexID := by
    rw [show (frame ratTrig (initialState : LoopState ℚ)
      ⟨0, 0, ⟨45 / 100, 55 / 100, 60 / 100, 1⟩, 1⟩).2.map Vertex.TexID
        = [0, 0, 0, 0, 1, 1, 1, 1, 2, 2, 2, 2, 0, 0, 0, 0, 0, 0, 0, 0] from rfl]
    simp
  obtain ⟨v, hv, hv2⟩ := List.mem_map.mp hm
  have h8 := h v hv
  rw [hv2] at h8
  norm_num at h8

/-! ## Single precision: the cumulative angle -/

/-- The value of `roundF32` from the binary exponent `e` of `q`. -/
theorem roundF32_eq (q : ℚ) (e : ℤ) (h0 : (2 : ℚ) ^ e ≤ |q|) (h1 : |q| < (2 : ℚ) ^ (e + 1))
    (hmin : -126 ≤ e) :
    roundF32 q = (roundHalfEven (q / 2 ^ (e - 23)) : ℚ) * 2 ^ (e - 23) := by
  have hpos : (0 : ℚ) < |q| := lt_of_lt_of_le (zpow_pos (by norm_num) e) h0
  have hq : q ≠ 0 := abs_pos.mp hpos
  have hlog : Int.log 2 |q| = e := by
    apply le_antisymm
    · have h := (Int.lt_zpow_iff_log_lt (R := ℚ) (b := 2) (by norm_num) hpos).mp
        (by simpa using h1)
      omega
    · exact (Int.zpow_le_iff_le_log (R := ℚ) (b := 2) (by norm_num) hpos).mp
        (by simpa using h0)
  unfold roundF32
  rw [if_neg hq, hlog, max_eq_left hmin]

/-- An integer is its own nearest integer. -/
theorem roundHalfEven_intCast (k : ℤ) : roundHalfEven (k : ℚ) = k := by
  simp [roundHalfEven]

/-- The natural numbers up to `2 ^ 24` are floats: `roundF32` leaves them unchanged. -/
theorem roundF32_natCast (n : ℕ) (hn : n ≤ 2 ^ 24) : roundF32 (n : ℚ) = n := by
  rcases Nat.eq_zero_or_pos n with h0 | hpos
  · subst h0
    simp [roundF32]
  rcases Nat.lt_or_ge n (2 ^ 24) with hlt | hge
  · have hlog : Nat.log 2 n < 24 := Nat.log_lt_of_lt_pow (Nat.pos_iff_ne_zero.mp hpos) hlt
    obtain ⟨m, hm⟩ : ∃ m : ℕ, Nat.log 2 n + m = 23 := ⟨23 - Nat.log 2 n, by omega⟩
    have hlo : 2 ^ Nat.log 2 n ≤ n := Nat.pow_log_le_self 2 (Nat.pos_iff_ne_zero.mp hpos)
    have hhi : n < 2 ^ (Nat.log 2 n + 1) := Nat.lt_pow_succ_log_self (by norm_num) n
    have habs : |(n : ℚ)| = n := abs_of_nonneg (Nat.cast_nonneg n)
    have hexp : ((Nat.log 2 n : ℕ) : ℤ) - 23 = -(m : ℤ) := by omega
    rw [roundF32_eq (n : ℚ) (Nat.log 2 n : ℤ)
      (by rw [habs, zpow_natCast]; exact_mod_cast hlo)
      (by
        rw [habs]
        have : ((Nat.log 2 n : ℕ) : ℤ) + 1 = ((Nat.log 2 n + 1 : ℕ) : ℤ) := by push_cast; ring
        rw [this, zpow_natCast]
        exact_mod_cast hhi)
      (by omega)]
    rw [hexp, zpow_neg, zpow_natCast]
    have hk : (n : ℚ) / ((2 : ℚ) ^ m)⁻¹ = ((n * 2 ^ m : ℕ) : ℤ) := by
      push_cast
      field_simp
    rw [hk, roundHalfEven_intCast]
    push_cast
    field_simp
  · have h24 : n = 2 ^ 24 := le_antisymm hn hge
    subst h24
    rw [roundF32_eq ((2 ^ 24 : ℕ) : ℚ) 24 (by norm_num) (by norm_num) (by norm_num)]
    norm_num [roundHalfEven]

/-- C9 (amended): one frame update replaces the cumulative angle `r` by the float
nearest to `r + a * dt`, the product rounded first and `dt` being the rounded difference
of the two times, whatever the velocity and the direction; the result is the angle given
to the fourth call of `CreateSquare`.  The increase is `a * dt` when `dt`, `a * dt` and
`r + a * dt` are floats; so it is with the rate `360`, an elapsed time of `1` and a
cumulative angle that is a whole number `n` of degrees with `n + 360 ≤ 2 ^ 24`, where
the angle increases by `360`. -/
theorem resultAngle_step_f32 (s : LoopState ℚ) (inp : FrameInput ℚ) :
    (frameUpdateF32 s inp).resultAngle
      = roundF32 (s.resultAngle
          + roundF32 (inp.angle * roundF32 (inp.currentTime - s.lastTime))) ∧
    ((quadArgs (frameUpdateF32 s inp) inp.color).map SquareArgs.angle)[3]?
      = some (frameUpdateF32 s inp).resultAngle ∧
    (roundF32 (inp.currentTime - s.lastTime) = inp.currentTime - s.lastTime →
      roundF32 (inp.angle * (inp.currentTime - s.lastTime))
        = inp.angle * (inp.currentTime - s.lastTime) →
      roundF32 (s.resultAngle + inp.angle * (inp.currentTime - s.lastTime))
        = s.resultAngle + inp.angle * (inp.currentTime - s.lastTime) →
      (frameUpdateF32 s inp).resultAngle
        = s.resultAngle + inp.angle * (inp.currentTime - s.lastTime)) ∧
    (∀ n : ℕ, n + 360 ≤ 2 ^ 24 → s.resultAngle = n → inp.angle = 360 →
      inp.currentTime - s.lastTime = 1 →
      (frameUpdateF32 s inp).resultAngle = s.resultAngle + 360) := by
  refine ⟨rfl, rfl, ?_, ?_⟩
  · intro h1 h2 h3
    show roundF32 (s.resultAngle
      + roundF32 (inp.angle * roundF32 (inp.currentTime - s.lastTime))) = _
    rw [h1, h2, h3]
  · intro n hn hr ha hdt
    show roundF32 (s.resultAngle
      + roundF32 (inp.angle * roundF32 (inp.currentTime - s.lastTime))) = _
    have e1 : roundF32 (1 : ℚ) = 1 := by
      simpa using roundF32_natCast 1 (by norm_num)
    have e360 : roundF32 (360 : ℚ) = 360 := by
      simpa using roundF32_natCast 360 (by norm_num)
    have esum : roundF32 ((n : ℚ) + 360) = (n : ℚ) + 360 := by
      simpa using roundF32_natCast (n + 360) hn
    rw [hdt, e1, ha, mul_one, e360, hr, esum]

/-- C9 (as stated) fails in the arithmetic of the code.  From the initial state, after a
frame with rate `360` at the time `2⁻²⁰` the cumulative angle is `45 / 2¹⁷`; the next
frame, with rate `360` and an elapsed time of exactly `1`, gives `360 + 11 / 2¹⁵`: the
increase is `360 - 2⁻¹⁷`, not `360`.  And from the cumulative angle `2²⁴` (reached with
rate `512` at the time `32768`) a frame with rate `1` and elapsed time `1` leaves the
angle at `2²⁴`: the increase is `0`, not `1`. -/
theorem resultAngle_increase_inexact :
    (runFramesF32 initialState [⟨0, 360, ⟨0, 0, 0, 1⟩, 1 / 2 ^ 20⟩]).resultAngle
      = 45 / 2 ^ 17 ∧
    (runFramesF32 initialState
        [⟨0, 360, ⟨0, 0, 0, 1⟩, 1 / 2 ^ 20⟩,
         ⟨0, 360, ⟨0, 0, 0, 1⟩, 1 + 1 / 2 ^ 20⟩]).resultAngle = 360 + 11 / 2 ^ 15 ∧
    (360 + 11 / 2 ^ 15 : ℚ) ≠ 45 / 2 ^ 17 + 360 * ((1 + 1 / 2 ^ 20) - 1 / 2 ^ 20) ∧
    (runFramesF32 initialState [⟨0, 512, ⟨0, 0, 0, 1⟩, 32768⟩]).resultAngle = 2 ^ 24 ∧
    (runFramesF32 initialState
        [⟨0, 512, ⟨0, 0, 0, 1⟩, 32768⟩, ⟨0, 1, ⟨0, 0, 0, 1⟩, 32769⟩]).resultAngle
      = 2 ^ 24 ∧
    (2 ^ 24 : ℚ) ≠ 2 ^ 24 + 1 * (32769 - 32768) := by
  have f1 : roundF32 (1 / 1048576 : ℚ) = 1 / 1048576 := by
    rw [roundF32_eq _ (-20) (by norm_num [abs_of_pos]) (by norm_num [abs_of_pos])
      (by norm_num)]
    norm_num [roundHalfEven]
  have f2 : roundF32 (45 / 131072 : ℚ) = 45 / 131072 := by
    rw [roundF32_eq _ (-12) (by norm_num [abs_of_pos]) (by norm_num [abs_of_pos])
      (by norm_num)]
    norm_num [roundHalfEven]
  have f3 : roundF32 (1 : ℚ) = 1 := by simpa using roundF32_natCast 1 (by norm_num)
  have f4 : roundF32 (360 : ℚ) = 360 := by simpa using roundF32_natCast 360 (by norm_num)
  have f5 : roundF32 (47185965 / 131072 : ℚ) = 11796491 / 32768 := by
    rw [roundF32_eq _ 8 (by norm_num [abs_of_pos]) (by norm_num [abs_of_pos])
      (by norm_num)]
    norm_num [roundHalfEven]
  have f6 : roundF32 (32768 : ℚ) = 32768 := by
    simpa using roundF32_natCast 32768 (by norm_num)
  have f7 : roundF32 (16777216 : ℚ) = 16777216 := by
    simpa using roundF32_natCast 16777216 (by norm_num)
  have f8 : roundF32 (16777217 : ℚ) = 16777216 := by
    rw [roundF32_eq _ 24 (by norm_num [abs_of_pos]) (by norm_num [abs_of_pos])
      (by norm_num)]
    norm_num [roundHalfEven]
  refine ⟨?_, ?_, by norm_num, ?_, ?_, by norm_num⟩ <;>
    norm_num [runFramesF32, frameUpdateF32, initialState, f1, f2, f3, f4, f5, f6, f7, f8]

/-- Witness of C9 (amended): the first frame at the time `1` with the rate `360` takes
the cumulative angle from `0` to `360`. -/
theorem resultAngle_step_f32_witness :
    (frameUpdateF32 initialState ⟨0, 360, ⟨0, 0, 0, 1⟩, 1⟩).resultAngle = 0 + 360 :=
  (resultAngle_step_f32 initialState ⟨0, 360, ⟨0, 0, 0, 1⟩, 1⟩).2.2.2 0 (by norm_num)
    (by simp [initialState]) rfl (by simp [initialState])

end FiveSquares
